import Mathlib

/-!
Verification of the israel_bus_cli response-normalization core
(`bus_info.py`, `main.py`) against its specification.

The Python functions are shallowly embedded:
* JSON-ish values carried by the upstream records are modelled by `PyVal`
  (null, booleans, integers, strings); records (`dict`) are association
  lists read through `get`, with a missing key behaving like Python's
  `dict.get` default `None`.
* Python's `str()`, `str.strip()` and `int()` (on already-stripped text)
  are modelled by `pyStr`, `pyStrip`, `pyInt?`.
* The standard-library pieces of `format_arrival` that are not repository
  code — `datetime.fromisoformat`, timezone conversion and `strftime` —
  are abstracted: a parse function `String → Option PyDt` is a parameter
  (`PyDt` records exactly what the code observes: whether the parsed
  datetime is timezone-aware, its own wall-clock `HH:MM`, and its `HH:MM`
  after conversion to the Israel timezone), and "now" is a parameter given
  as minutes since midnight in the display timezone.  All theorems hold
  for every such parse function.
* `f"{dist_val/1000:.1f}km"` is modelled exactly, including the IEEE-754
  double rounding of `dist_val/1000` (CPython's int/int true division is
  correctly rounded, and its `%.1f` formatting rounds the exact binary
  value), by `pyKmFmt`.
-/

namespace IsraelBus

/-- A JSON-ish Python value found in an upstream record. -/
inductive PyVal where
  | none
  | bool (b : Bool)
  | int (n : Int)
  | str (s : String)
deriving DecidableEq, Repr

/-- A raw upstream record: a string-keyed mapping (`dict`). -/
abbrev RawRecord := List (String × PyVal)

/-- `r.get(k)`: first binding of `k`, defaulting to `None` (also for a
`null` value, which Python's code paths treat identically). -/
def get (r : RawRecord) (k : String) : PyVal :=
  match r.find? (fun p => p.1 == k) with
  | some p => p.2
  | Option.none => PyVal.none

/-- Python truthiness of the modelled values. -/
def truthy : PyVal → Bool
  | PyVal.none => false
  | PyVal.bool b => b
  | PyVal.int n => !(n == 0)
  | PyVal.str s => !(s == "")

/-- Python `str()` on the modelled values. -/
def pyStr : PyVal → String
  | PyVal.none => "None"
  | PyVal.bool b => if b then "True" else "False"
  | PyVal.int n => toString n
  | PyVal.str s => s

/-- ASCII whitespace stripped by `str.strip()`. -/
def pyIsSpace (c : Char) : Bool :=
  c == ' ' || c == '\t' || c == '\n' || c == '\r' || c == '\x0b' || c == '\x0c'

/-- `str.strip()` (ASCII whitespace). -/
def pyStrip (s : String) : String :=
  String.mk (((s.toList.dropWhile pyIsSpace).reverse.dropWhile pyIsSpace).reverse)

/-- Digit run accepted by Python's `int()` after the first digit:
digits, with single underscores allowed between digits. -/
def pyDigitsAux (acc : Nat) : List Char → Option Nat
  | [] => some acc
  | '_' :: c :: cs =>
      if c.isDigit then pyDigitsAux (acc * 10 + (c.toNat - 48)) cs else Option.none
  | c :: cs =>
      if c.isDigit then pyDigitsAux (acc * 10 + (c.toNat - 48)) cs else Option.none

/-- Nonempty digit run (Python `int()` digit grammar). -/
def pyDigits : List Char → Option Nat
  | c :: cs => if c.isDigit then pyDigitsAux (c.toNat - 48) cs else Option.none
  | [] => Option.none

/-- Python `int()` on an already-stripped string: optional sign, digits. -/
def pyInt? (s : String) : Option Int :=
  match s.toList with
  | '+' :: cs => (pyDigits cs).map Int.ofNat
  | '-' :: cs => (pyDigits cs).map (fun n => -(n : Int))
  | cs => (pyDigits cs).map Int.ofNat

/-- `bus_info.format_arrival` lines 101-108: parse `MinutesToArrival` as
`int(str(v).strip())`, `None`/failure degrading to unknown. -/
def parse_mins (r : RawRecord) : Option Int :=
  match get r "MinutesToArrival" with
  | PyVal.none => Option.none
  | v => pyInt? (pyStrip (pyStr v))

/-- `bus_info.format_arrival` lines 110-117: the minutes segment. -/
def mins_part : Option Int → String
  | Option.none => "? min"
  | some m => if m ≤ 0 then "Due" else if m = 1 then "1 min" else toString m ++ " min"

/-- Minimal `t` with `d / 2 ^ t < 1000` (structural fuel variant). -/
def minTAux : Nat → Nat → Nat
  | 0, _ => 0
  | fuel + 1, d => if d < 1000 then 0 else minTAux fuel (d / 2) + 1

/-- Minimal `t` with `d / 2 ^ t < 1000`. -/
def minT (d : Nat) : Nat := minTAux d d

/-- Round `a / b` to the nearest integer, ties to even (`b > 0`). -/
def roundHalfEven (a b : Nat) : Nat :=
  let n := a / b
  let r := a % b
  if 2 * r < b then n
  else if b < 2 * r then n + 1
  else if n % 2 = 0 then n else n + 1

/-- Model of CPython `f"{d/1000:.1f}km"` for `d ≥ 1000`: `d/1000` is the
correctly rounded IEEE-754 double (53-bit significand, round half to
even), and `%.1f` rounds that exact binary value to one decimal.  (For
`d` beyond the double range, ≈ 10^309, the real interpreter would print
`inf`; such magnitudes are unreachable for a distance field in practice
and are not modelled.) -/
def pyKmFmt (d : Nat) : String :=
  let t := minT d
  let n10 : Nat :=
    if t ≤ 53 then
      let s := 53 - t
      let m := roundHalfEven (d * 2 ^ s) 1000
      roundHalfEven (m * 10) (2 ^ s)
    else
      let s := t - 53
      let m := roundHalfEven d (1000 * 2 ^ s)
      m * 10 * 2 ^ s
  toString (n10 / 10) ++ "." ++ toString (n10 % 10) ++ "km"

/-- `bus_info.format_arrival` lines 119-132: the distance segment
(`dist_part` local): positive parsed value below 1000 → `"{n}m"`,
`≥ 1000` → `f"{n/1000:.1f}km"`, else empty. -/
def dist_part (r : RawRecord) : String :=
  match get r "Distance" with
  | PyVal.none => ""
  | v =>
    match pyInt? (pyStrip (pyStr v)) with
    | Option.none => ""
    | some d =>
      if 0 < d then
        (if d < 1000 then toString d ++ "m" else pyKmFmt d.toNat)
      else ""

/-- `str.startswith` (on the modelled strings). -/
def pyStartsWith (s p : String) : Bool := p.toList.isPrefixOf s.toList

/-- `str.endswith` (on the modelled strings). -/
def pyEndsWith (s p : String) : Bool := p.toList.isSuffixOf s.toList

/-- `bus_info.format_arrival` lines 136-142: placeholder classification of
the `DtArrival` string. -/
def isPlaceholder (ts : String) (mins : Option Int) : Bool :=
  if pyStartsWith ts ("9999-") || pyStartsWith ts ("0001-") then true
  else if pyEndsWith ts ("00:00:00")
      && (match mins with | some m => decide (0 < m) | Option.none => false) then true
  else false

/-- What the code observes about a parsed `datetime`: whether `tzinfo` is
set, its own wall-clock `strftime("%H:%M")`, and its
`astimezone(ZoneInfo("Asia/Jerusalem")).strftime("%H:%M")`. -/
structure PyDt where
  aware : Bool
  wallHHMM : String
  israelHHMM : String
deriving DecidableEq, Repr

/-- Lines 157-159: the `HH:MM` the code renders for a parsed timestamp.
With timezone data, a naive datetime gets `replace(tzinfo=tz)` then
`astimezone(tz)` — its own wall time — while an aware one is converted to
Israel time; without timezone data, plain `strftime` gives the stored
wall time. -/
def schedHHMM (tzAvail : Bool) (dt : PyDt) : String :=
  if tzAvail then (if dt.aware then dt.israelHHMM else dt.wallHHMM) else dt.wallHHMM

/-- Line 155: `ts.replace("Z", "+00:00")`. -/
def tsReplaceZ (s : String) : String :=
  String.mk (s.toList.foldr
    (fun c acc => if c == 'Z' then '+' :: '0' :: '0' :: ':' :: '0' :: '0' :: acc else c :: acc)
    [])

/-- Lines 153-160: attempt to parse the timestamp and render the
scheduled segment; `Option.none` models the raised exception. -/
def schedSeg (fromiso : String → Option PyDt) (tzAvail : Bool) (ts : String) : Option String :=
  match fromiso (tsReplaceZ ts) with
  | Option.none => Option.none
  | some dt => some (schedHHMM tzAvail dt ++ " (sched)")

/-- Two-digit zero-padded rendering of `strftime` fields. -/
def pad2 (n : Nat) : String := if n < 10 then "0" ++ toString n else toString n

/-- `strftime("%H:%M")` of a time given in minutes (date rolls over). -/
def hhmmOfMinutes (t : Nat) : String :=
  pad2 (t % 1440 / 60) ++ ":" ++ pad2 (t % 1440 % 60)

/-- `bus_info.format_arrival` lines 134-162: the `(placeholder, ts_part)`
state after the classification and parse attempt (before the ETA
fallback).  A non-string timestamp leaves `(False, "")`; classification
or a parse exception gives `(True, "")`; a successful parse gives
`(False, "HH:MM (sched)")`. -/
def placeholder_tspart (fromiso : String → Option PyDt) (tzAvail : Bool)
    (r : RawRecord) : Bool × String :=
  match get r "DtArrival" with
  | PyVal.str s =>
    if isPlaceholder s (parse_mins r) then (true, "")
    else
      match schedSeg fromiso tzAvail s with
      | some p => (false, p)
      | Option.none => (true, "")
  | _ => (false, "")

/-- `bus_info.format_arrival` lines 134-166: the time segment (`ts_part`
local), i.e. the state above followed by the line-164 ETA fallback.
`fromiso` abstracts `datetime.fromisoformat`; `nowMin` is
`datetime.now(tz)` as minutes since midnight in the display timezone. -/
def ts_part (fromiso : String → Option PyDt) (tzAvail : Bool) (nowMin : Nat)
    (r : RawRecord) : String :=
  let st := placeholder_tspart fromiso tzAvail r
  match parse_mins r with
  | some m => if (st.1 || st.2 == "") && 0 ≤ m then "~" ++ hhmmOfMinutes (nowMin + m.toNat) else st.2
  | Option.none => st.2

/-- Whether lines 152-160 produced a valid scheduled-time segment: the
timestamp is present and textual, not classified placeholder, and parses.
(`tzAvail` does not affect this.) -/
def schedProduced (fromiso : String → Option PyDt) (r : RawRecord) : Bool :=
  match get r "DtArrival" with
  | PyVal.str s => !isPlaceholder s (parse_mins r) && (fromiso (tsReplaceZ s)).isSome
  | _ => false

/-- `" | ".join([p for p in parts if p])`. -/
def joinNonEmpty (ps : List String) : String :=
  match ps.filter (fun p => !(p == "")) with
  | [] => ""
  | q :: qs => qs.foldl (fun acc x => acc ++ " | " ++ x) q

/-- `bus_info.format_arrival` (lines 95-169): the returned display string,
assembled from the minutes and time segments (the computed distance
segment is not joined in — line 168). -/
def format_arrival (fromiso : String → Option PyDt) (tzAvail : Bool) (nowMin : Nat)
    (r : RawRecord) : String :=
  joinNonEmpty [mins_part (parse_mins r), ts_part fromiso tzAvail nowMin r]

/-- `bus_info.select_lines_by_number` (lines 39-43). -/
def select_lines_by_number (lines : List RawRecord) (number : String) : List RawRecord :=
  if number == "" then lines
  else lines.filter (fun l => pyStr (get l "Shilut") == number)

/-- The id keys tried by `bus_info.extract_stop_id` (line 81). -/
def idKeys : List String := ["BusStopId", "Makat", "Id", "StopId", "StopCode"]

/-- First candidate key whose value is truthy (the extraction loop). -/
def firstTruthy (r : RawRecord) : List String → Option PyVal
  | [] => Option.none
  | k :: ks => let v := get r k; if truthy v then some v else firstTruthy r ks

/-- `bus_info.extract_stop_id` (lines 79-86). -/
def extract_stop_id (r : RawRecord) : Option String :=
  (firstTruthy r idKeys).map pyStr

/-- Modelled from the spec: the LineFilter's line-number field resolved
via FieldResolver with candidates `Shilut` then `Line` (the claim's and
spec's resolution order, stated for comparison with the code's
`select_lines_by_number`, which reads only `Shilut`). -/
def lineNumber_specResolved (l : RawRecord) : Option PyVal :=
  firstTruthy l ["Shilut", "Line"]

/-- `main.list_nearby_stops` lines 80-85: sort key `dist_val`
(`s.get("Distance") or s.get("DistanceFromStart")`, `int(str(d).strip())`,
any failure → the `10**9` sentinel). -/
def dist_val (s : RawRecord) : Int :=
  match pyInt? (pyStrip (pyStr (if truthy (get s "Distance") then get s "Distance"
                                else get s "DistanceFromStart"))) with
  | some n => n
  | Option.none => 10 ^ 9

/-- `stops.sort(key=dist_val)`: Python's `list.sort` is stable, and a
stable sort by a total key is the unique stable-sorted arrangement, which
`List.insertionSort` with this relation computes. -/
def sortStops (stops : List RawRecord) : List RawRecord :=
  List.insertionSort (fun a b => dist_val a ≤ dist_val b) stops

instance : IsTotal RawRecord (fun a b => dist_val a ≤ dist_val b) :=
  ⟨fun a b => Int.le_total (dist_val a) (dist_val b)⟩

instance : IsTrans RawRecord (fun a b => dist_val a ≤ dist_val b) :=
  ⟨fun _ _ _ hab hbc => le_trans hab hbc⟩

/-- `main.list_nearby_stops` lines 77-111, pure core: sort the fetched
stops by distance and truncate when the cap is positive (0 = unlimited).
Network retrieval and printing are outside the model; the fetched list is
the argument. -/
def list_nearby_stops (stops : List RawRecord) (limit : Int) : List RawRecord :=
  let sorted := sortStops stops
  if 0 < limit then sorted.take limit.toNat else sorted

/-- Outcome of `main.show_lines_for_stop`, abstracting its prints:
`unresolvable` = "Can't determine stop id." (returns before any lookup),
`noLines` = "No realtime lines.", `shown` = lines rendered. -/
inductive LinesOutcome where
  | unresolvable
  | noLines
  | shown (lines : List RawRecord)
deriving DecidableEq, Repr

/-- Truthiness of an optional string argument. -/
def optStrTruthy : Option String → Bool
  | Option.none => false
  | some s => !(s == "")

/-- Truthiness of an optional record argument (empty dict is falsy). -/
def optRecTruthy : Option RawRecord → Bool
  | Option.none => false
  | some r => !r.isEmpty

/-- `main.show_lines_for_stop` (lines 113-142), with `get_lines_by_stop`
abstracted as `fetch`. -/
def show_lines_for_stop (fetch : String → List RawRecord) (stop : Option RawRecord)
    (stopIdArg : Option String) (lineFilter : Option String) : LinesOutcome :=
  let stopId : Option String :=
    if !optStrTruthy stopIdArg && optRecTruthy stop then extract_stop_id (stop.getD [])
    else stopIdArg
  if !optStrTruthy stopId then LinesOutcome.unresolvable
  else
    let lines := fetch (stopId.getD "")
    let lines2 := if optStrTruthy lineFilter then select_lines_by_number lines (lineFilter.getD "")
                  else lines
    if lines2.isEmpty then LinesOutcome.noLines else LinesOutcome.shown lines2

/-! ### Helper lemmas -/

lemma append_ne_empty (a b : String) (hb : b.data ≠ []) : a ++ b ≠ "" := by
  intro h
  have hd : a.data ++ b.data = [] := by
    have := congrArg String.data h
    rwa [String.data_append] at this
  exact hb (List.append_eq_nil.mp hd).2

lemma mins_part_some (m : Int) :
    mins_part (some m)
      = if m ≤ 0 then "Due" else if m = 1 then "1 min" else toString m ++ " min" := rfl

lemma mins_part_ne_empty (o : Option Int) : mins_part o ≠ "" := by
  cases o with
  | none => decide
  | some m =>
    rw [mins_part_some]
    split
    · decide
    · split
      · decide
      · exact append_ne_empty _ _ (by decide)

lemma sched_ne_empty (tzAvail : Bool) (dt : PyDt) : schedHHMM tzAvail dt ++ " (sched)" ≠ "" :=
  append_ne_empty _ _ (by decide)

lemma joinNonEmpty_pair (a b : String) (ha : a ≠ "") :
    joinNonEmpty [a, b] = if b = "" then a else a ++ " | " ++ b := by
  have ha2 : (a == "") = false := beq_eq_false_iff_ne.mpr ha
  by_cases hb : b = ""
  · subst hb
    simp [joinNonEmpty, List.filter, ha2]
  · have hb2 : (b == "") = false := beq_eq_false_iff_ne.mpr hb
    simp [joinNonEmpty, List.filter, ha2, hb2, hb]

lemma isPrefixOf_self_append (l t : List Char) : l.isPrefixOf (l ++ t) = true := by
  induction l with
  | nil => simp
  | cons c cs ih => simp [List.cons_append, List.isPrefixOf_cons₂_self, ih]

lemma pad2_len : ∀ n, n < 60 → (pad2 n).length = 2 := by decide

lemma hhmm_len (t : Nat) : (hhmmOfMinutes t).length = 5 := by
  unfold hhmmOfMinutes
  rw [String.length_append, String.length_append,
    pad2_len _ (by omega), pad2_len _ (by omega)]
  decide

lemma placeholder_tspart_of_sched (fromiso : String → Option PyDt) (tzAvail : Bool)
    (r : RawRecord) (s : String) (dt : PyDt)
    (h1 : get r "DtArrival" = PyVal.str s)
    (h2 : isPlaceholder s (parse_mins r) = false)
    (h3 : fromiso (tsReplaceZ s) = some dt) :
    placeholder_tspart fromiso tzAvail r = (false, schedHHMM tzAvail dt ++ " (sched)") := by
  unfold placeholder_tspart
  rw [h1]
  simp [h2, schedSeg, h3]

lemma ts_part_of_sched (fromiso : String → Option PyDt) (tzAvail : Bool) (nowMin : Nat)
    (r : RawRecord) (s : String) (dt : PyDt)
    (h1 : get r "DtArrival" = PyVal.str s)
    (h2 : isPlaceholder s (parse_mins r) = false)
    (h3 : fromiso (tsReplaceZ s) = some dt) :
    ts_part fromiso tzAvail nowMin r = schedHHMM tzAvail dt ++ " (sched)" := by
  unfold ts_part
  rw [placeholder_tspart_of_sched fromiso tzAvail r s dt h1 h2 h3]
  cases hm : parse_mins r with
  | none => simp
  | some m => simp [beq_eq_false_iff_ne.mpr (sched_ne_empty tzAvail dt)]

lemma placeholder_tspart_snd_of_noSched (fromiso : String → Option PyDt) (tzAvail : Bool)
    (r : RawRecord) (h : schedProduced fromiso r = false) :
    (placeholder_tspart fromiso tzAvail r).2 = "" := by
  unfold schedProduced at h
  unfold placeholder_tspart
  cases hd : get r "DtArrival" with
  | str s =>
    rw [hd] at h
    by_cases hp : isPlaceholder s (parse_mins r) = true
    · simp [hp]
    · have hp2 : isPlaceholder s (parse_mins r) = false := by
        cases hq : isPlaceholder s (parse_mins r)
        · rfl
        · exact absurd hq hp
      have hf : (fromiso (tsReplaceZ s)).isSome = false := by
        simpa [hp2] using h
      cases hfe : fromiso (tsReplaceZ s) with
      | some dt => rw [hfe] at hf; simp at hf
      | none => simp [hp2, schedSeg, hfe]
  | none => rfl
  | bool b => rfl
  | int n => rfl

lemma ts_part_of_noSched_eta (fromiso : String → Option PyDt) (tzAvail : Bool) (nowMin : Nat)
    (r : RawRecord) (m : Int)
    (h : schedProduced fromiso r = false)
    (hm : parse_mins r = some m) (h0 : 0 ≤ m) :
    ts_part fromiso tzAvail nowMin r = "~" ++ hhmmOfMinutes (nowMin + m.toNat) := by
  unfold ts_part
  rw [hm]
  simp [placeholder_tspart_snd_of_noSched fromiso tzAvail r h, h0]

lemma ts_part_of_noSched_noEta (fromiso : String → Option PyDt) (tzAvail : Bool) (nowMin : Nat)
    (r : RawRecord)
    (h : schedProduced fromiso r = false)
    (hm : parse_mins r = Option.none ∨ ∃ m, parse_mins r = some m ∧ m < 0) :
    ts_part fromiso tzAvail nowMin r = "" := by
  unfold ts_part
  rcases hm with hm | ⟨m, hm, hneg⟩
  · rw [hm]
    exact placeholder_tspart_snd_of_noSched fromiso tzAvail r h
  · rw [hm]
    have h0 : ¬ (0 ≤ m) := by omega
    simp [h0, placeholder_tspart_snd_of_noSched fromiso tzAvail r h]

/-! ### Theorems for the claims -/

/-- Claim C3: for every line record, the minutes segment of the arrival
display is computed by an integer parse of the (whitespace-stripped,
stringified) minutes-to-arrival field, and renders as `"? min"` when the
field is absent or unparseable, `"Due"` for parsed values `≤ 0`,
`"1 min"` for `1`, and `"{n} min"` for `n ≥ 2`. -/
theorem minutes_segment_rule (fromiso : String → Option PyDt) (tzAvail : Bool) (nowMin : Nat)
    (r : RawRecord) :
    (∃ t, format_arrival fromiso tzAvail nowMin r
        = joinNonEmpty [mins_part (parse_mins r), t]) ∧
    (get r "MinutesToArrival" = PyVal.none → parse_mins r = Option.none) ∧
    (get r "MinutesToArrival" ≠ PyVal.none →
      parse_mins r = pyInt? (pyStrip (pyStr (get r "MinutesToArrival")))) ∧
    mins_part Option.none = "? min" ∧
    (∀ m : Int, m ≤ 0 → mins_part (some m) = "Due") ∧
    mins_part (some 1) = "1 min" ∧
    (∀ m : Int, 2 ≤ m → mins_part (some m) = toString m ++ " min") := by
  refine ⟨⟨ts_part fromiso tzAvail nowMin r, rfl⟩, ?_, ?_, rfl, ?_, by decide, ?_⟩
  · intro h
    simp [parse_mins, h]
  · intro h
    unfold parse_mins
    cases hv : get r "MinutesToArrival" <;> simp_all
  · intro m hm
    simp [mins_part, hm]
  · intro m hm
    have h1 : ¬ m ≤ 0 := by omega
    have h2 : ¬ m = 1 := by omega
    simp [mins_part, h1, h2]

/-- Witness for C3 at the spec's Scenario B: minutes `"0"` renders as
`"Due"`. -/
theorem minutes_segment_rule_instance :
    mins_part (parse_mins [(("MinutesToArrival" : String), PyVal.str "0")]) = "Due" := by
  have h := minutes_segment_rule (fun _ => Option.none) true 0
    [(("MinutesToArrival" : String), PyVal.str "0")]
  have h1 := h.2.2.1 (by decide)
  rw [h1, show pyInt? (pyStrip (pyStr (get [(("MinutesToArrival" : String), PyVal.str "0")]
    "MinutesToArrival"))) = some 0 from by decide]
  exact h.2.2.2.2.1 0 (by decide)

/-- Claim C9: filtering with the literal string `"None"` matches every
record whose `Shilut` field is absent or null, because the missing field
is coerced with `str()` before the exact comparison; `"None"` is a
non-empty filter string. -/
theorem filter_none_matches_missing (lines : List RawRecord) (l : RawRecord) :
    (select_lines_by_number lines "None"
      = lines.filter (fun x => pyStr (get x "Shilut") == "None")) ∧
    (get l "Shilut" = PyVal.none → l ∈ lines → l ∈ select_lines_by_number lines "None") ∧
    ("None" : String) ≠ "" := by
  refine ⟨by simp [select_lines_by_number], ?_, by decide⟩
  intro h hmem
  simp [select_lines_by_number, List.mem_filter, hmem, h, pyStr]

/-- Witness for C9: a line with no `Shilut` key at all is returned by the
filter `"None"`. -/
theorem filter_none_matches_missing_instance :
    [(("Line" : String), PyVal.str "7")] ∈
      select_lines_by_number [[(("Line" : String), PyVal.str "7")]] "None" :=
  (filter_none_matches_missing [[(("Line" : String), PyVal.str "7")]]
    [(("Line" : String), PyVal.str "7")]).2.1 (by decide) (by simp)

/-- Counterexample to C5 as stated: the code's filter reads only the
`Shilut` key, never `Line`.  A record whose spec-side line-number field
(FieldResolver over `Shilut` then `Line`) equals the filter `"12"` is
nevertheless dropped. -/
theorem line_fallback_counterexample :
    lineNumber_specResolved [(("Line" : String), PyVal.str "12")] = some (PyVal.str "12") ∧
    select_lines_by_number [[(("Line" : String), PyVal.str "12")]] "12" = [] := by
  exact ⟨by decide, by decide⟩

/-- Amended C5: the filter returns exactly the subsequence of records
whose `str()`-coerced `Shilut` value string-equals the filter (so `"12"`
does not match `"012"`, and a missing `Shilut` stringifies to `"None"`);
the empty filter string returns the input unchanged. -/
theorem shilut_filter_rule (lines : List RawRecord) (number : String) :
    (number = "" → select_lines_by_number lines number = lines) ∧
    (number ≠ "" →
      (select_lines_by_number lines number).Sublist lines ∧
      ∀ l, l ∈ select_lines_by_number lines number ↔
        l ∈ lines ∧ pyStr (get l "Shilut") = number) := by
  constructor
  · intro h
    simp [select_lines_by_number, h]
  · intro h
    have h2 : (number == "") = false := beq_eq_false_iff_ne.mpr h
    refine ⟨?_, ?_⟩
    · simp only [select_lines_by_number, h2, Bool.false_eq_true, if_false]
      exact List.filter_sublist _
    · intro l
      simp [select_lines_by_number, h2, List.mem_filter]

/-- Witness for the amended C5: filter `"12"` keeps the `Shilut = "12"`
record and drops the `Shilut = "012"` record. -/
theorem shilut_filter_rule_instance :
    [(("Shilut" : String), PyVal.str "12")] ∈
      select_lines_by_number [[(("Shilut" : String), PyVal.str "12")],
        [(("Shilut" : String), PyVal.str "012")]] "12" ∧
    [(("Shilut" : String), PyVal.str "012")] ∉
      select_lines_by_number [[(("Shilut" : String), PyVal.str "12")],
        [(("Shilut" : String), PyVal.str "012")]] "12" := by
  have h := (shilut_filter_rule [[(("Shilut" : String), PyVal.str "12")],
    [(("Shilut" : String), PyVal.str "012")]] "12").2 (by decide)
  refine ⟨(h.2 _).mpr ⟨by simp, by decide⟩, fun hmem => absurd ((h.2 _).mp hmem).2 (by decide)⟩

/-- Claim C7: a stop record with no truthy candidate id key yields
`extract_stop_id = None`, and the realtime-line query for such a stop is
rejected as unresolvable regardless of what the lookup would return (so
the lookup is never consulted), an outcome distinct from "no lines
found". -/
theorem unresolvable_stop_rule (stop : RawRecord)
    (h : ∀ k ∈ idKeys, truthy (get stop k) = false) :
    extract_stop_id stop = Option.none ∧
    (∀ (fetch : String → List RawRecord) (lineFilter : Option String),
      show_lines_for_stop fetch (some stop) Option.none lineFilter
        = LinesOutcome.unresolvable) ∧
    LinesOutcome.unresolvable ≠ LinesOutcome.noLines := by
  have h1 := h "BusStopId" (by simp [idKeys])
  have h2 := h "Makat" (by simp [idKeys])
  have h3 := h "Id" (by simp [idKeys])
  have h4 := h "StopId" (by simp [idKeys])
  have h5 := h "StopCode" (by simp [idKeys])
  have hext : extract_stop_id stop = Option.none := by
    simp [extract_stop_id, firstTruthy, idKeys, h1, h2, h3, h4, h5]
  refine ⟨hext, ?_, by decide⟩
  intro fetch lineFilter
  by_cases he : stop.isEmpty <;>
    simp [show_lines_for_stop, optStrTruthy, optRecTruthy, he, hext]

/-- Witness for C7: a record with only a `Name` key is unresolvable even
though the lookup would have returned a line. -/
theorem unresolvable_stop_rule_instance :
    show_lines_for_stop (fun _ => [[(("Shilut" : String), PyVal.str "1")]])
      (some [(("Name" : String), PyVal.str "X")]) Option.none Option.none
      = LinesOutcome.unresolvable :=
  (unresolvable_stop_rule [(("Name" : String), PyVal.str "X")] (by decide)).2.1
    (fun _ => [[(("Shilut" : String), PyVal.str "1")]]) Option.none

lemma isPlaceholder_iff (ts : String) (mins : Option Int) :
    isPlaceholder ts mins = true ↔
      (pyStartsWith ts ("9999-") = true ∨ pyStartsWith ts ("0001-") = true ∨
        (pyEndsWith ts ("00:00:00") = true ∧ ∃ m, mins = some m ∧ 0 < m)) := by
  unfold isPlaceholder
  cases mins with
  | none =>
    cases hA : pyStartsWith ts ("9999-") <;> cases hB : pyStartsWith ts ("0001-") <;>
      cases hC : pyEndsWith ts ("00:00:00") <;> simp
  | some m =>
    by_cases hm : (0 : Int) < m <;>
      cases hA : pyStartsWith ts ("9999-") <;> cases hB : pyStartsWith ts ("0001-") <;>
        cases hC : pyEndsWith ts ("00:00:00") <;> simp [hm]

lemma placeholder_tspart_of_placeholder (fromiso : String → Option PyDt) (tzAvail : Bool)
    (r : RawRecord) (s : String)
    (h1 : get r "DtArrival" = PyVal.str s)
    (hp : isPlaceholder s (parse_mins r) = true) :
    placeholder_tspart fromiso tzAvail r = (true, "") := by
  unfold placeholder_tspart
  rw [h1]
  simp [hp]

/-- Claim C1: the scheduled timestamp is classified as a placeholder
exactly when its date portion carries the `9999-` or `0001-` sentinel
year, or it ends with midnight `00:00:00` while parsed minutes-to-arrival
is known and strictly positive; a placeholder-classified timestamp never
yields a `"... (sched)"` time segment. -/
theorem placeholder_rule (r : RawRecord) (s : String)
    (h : get r "DtArrival" = PyVal.str s) :
    (isPlaceholder s (parse_mins r) = true ↔
      (pyStartsWith s ("9999-") = true ∨ pyStartsWith s ("0001-") = true ∨
        (pyEndsWith s ("00:00:00") = true ∧ ∃ m, parse_mins r = some m ∧ 0 < m))) ∧
    (isPlaceholder s (parse_mins r) = true →
      ∀ (fromiso : String → Option PyDt) (tzAvail : Bool) (nowMin : Nat) (x : String),
        ts_part fromiso tzAvail nowMin r ≠ x ++ " (sched)") := by
  refine ⟨isPlaceholder_iff s (parse_mins r), ?_⟩
  intro hp fromiso tzAvail nowMin x
  unfold ts_part
  rw [placeholder_tspart_of_placeholder fromiso tzAvail r s h hp]
  cases hm : parse_mins r with
  | none =>
    intro he
    exact append_ne_empty x (" (sched)") (by decide) he.symm
  | some m =>
    show (if ((true || (("" : String) == "")) && decide (0 ≤ m)) = true
        then "~" ++ hhmmOfMinutes (nowMin + m.toNat) else "") ≠ x ++ " (sched)"
    by_cases h0 : (0 : Int) ≤ m
    · rw [if_pos (by simp [h0])]
      intro he
      have hlen := congrArg String.length he
      rw [String.length_append, String.length_append, hhmm_len,
        show ("~" : String).length = 1 from rfl,
        show (" (sched)" : String).length = 8 from rfl] at hlen
      omega
    · rw [if_neg (by simp [h0])]
      intro he
      exact append_ne_empty x (" (sched)") (by decide) he.symm

/-- Witness for C1 at the spec's Scenario C: `"9999-12-31T00:00:00"` with
minutes `"3"` is classified placeholder and no `(sched)` segment can be
the time segment. -/
theorem placeholder_rule_instance :
    isPlaceholder ("9999-12-31T00:00:00")
      (parse_mins [(("DtArrival" : String), PyVal.str "9999-12-31T00:00:00"),
        (("MinutesToArrival" : String), PyVal.str "3")]) = true ∧
    ts_part (fun _ => Option.none) true 600
      [(("DtArrival" : String), PyVal.str "9999-12-31T00:00:00"),
        (("MinutesToArrival" : String), PyVal.str "3")] ≠ "23:59" ++ " (sched)" := by
  have h := placeholder_rule
    [(("DtArrival" : String), PyVal.str "9999-12-31T00:00:00"),
      (("MinutesToArrival" : String), PyVal.str "3")] ("9999-12-31T00:00:00") (by decide)
  have hp := h.1.mpr (Or.inl (by decide))
  exact ⟨hp, h.2 hp (fun _ => Option.none) true 600 ("23:59")⟩

/-- Claim C2: the time segment is the parsed, timezone-converted
`"HH:MM (sched)"` when the timestamp is present, textual, not
placeholder, and parses (for any parse behaviour `fromiso`); otherwise,
when minutes-to-arrival is known and non-negative, it is the ETA
`"~HH:MM"` at now-plus-minutes in the display timezone; otherwise no
time segment is emitted.  Parse failure never propagates: it lands in the
second or third case. -/
theorem time_segment_rule (fromiso : String → Option PyDt) (tzAvail : Bool) (nowMin : Nat)
    (r : RawRecord) :
    (∀ s dt, get r "DtArrival" = PyVal.str s →
      isPlaceholder s (parse_mins r) = false →
      fromiso (tsReplaceZ s) = some dt →
      format_arrival fromiso tzAvail nowMin r
        = joinNonEmpty [mins_part (parse_mins r), schedHHMM tzAvail dt ++ " (sched)"]) ∧
    (∀ m, schedProduced fromiso r = false → parse_mins r = some m → 0 ≤ m →
      format_arrival fromiso tzAvail nowMin r
        = joinNonEmpty [mins_part (parse_mins r), "~" ++ hhmmOfMinutes (nowMin + m.toNat)]) ∧
    (schedProduced fromiso r = false →
      (parse_mins r = Option.none ∨ ∃ m, parse_mins r = some m ∧ m < 0) →
      format_arrival fromiso tzAvail nowMin r = mins_part (parse_mins r)) := by
  refine ⟨?_, ?_, ?_⟩
  · intro s dt h1 h2 h3
    unfold format_arrival
    rw [ts_part_of_sched fromiso tzAvail nowMin r s dt h1 h2 h3]
  · intro m h hm h0
    unfold format_arrival
    rw [ts_part_of_noSched_eta fromiso tzAvail nowMin r m h hm h0]
  · intro h hm
    unfold format_arrival
    rw [ts_part_of_noSched_noEta fromiso tzAvail nowMin r h hm,
      joinNonEmpty_pair _ _ (mins_part_ne_empty _)]
    simp

/-- Witness for C2 at the spec's Scenario D: an aware
`2024-01-01T14:30:00+02:00` with minutes `"10"` renders
`"10 min | 14:30 (sched)"`. -/
theorem time_segment_rule_instance :
    format_arrival
      (fun s => if s == "2024-01-01T14:30:00+02:00"
        then some (PyDt.mk true ("14:30") ("14:30")) else Option.none)
      true 600
      [(("DtArrival" : String), PyVal.str "2024-01-01T14:30:00+02:00"),
        (("MinutesToArrival" : String), PyVal.str "10")]
      = "10 min | 14:30 (sched)" := by
  have h := (time_segment_rule
      (fun s => if s == "2024-01-01T14:30:00+02:00"
        then some (PyDt.mk true ("14:30") ("14:30")) else Option.none)
      true 600
      [(("DtArrival" : String), PyVal.str "2024-01-01T14:30:00+02:00"),
        (("MinutesToArrival" : String), PyVal.str "10")]).1
    ("2024-01-01T14:30:00+02:00") (PyDt.mk true ("14:30") ("14:30"))
    (by decide) (by decide) (by decide)
  rw [h]
  decide

/-- Claim C8: on every record of the modelled value universe — fields
absent, null, boolean, numeric, or arbitrary strings — `format_arrival`
is a total function returning the assembled display, whose minutes
segment is always one of the defined degraded forms; no parse failure
escapes. -/
theorem format_arrival_total_shape (fromiso : String → Option PyDt) (tzAvail : Bool)
    (nowMin : Nat) (r : RawRecord) :
    ∃ t, format_arrival fromiso tzAvail nowMin r
        = joinNonEmpty [mins_part (parse_mins r), t] ∧
      (mins_part (parse_mins r) = "? min" ∨ mins_part (parse_mins r) = "Due" ∨
        mins_part (parse_mins r) = "1 min" ∨
        ∃ n : Int, 2 ≤ n ∧ mins_part (parse_mins r) = toString n ++ " min") := by
  refine ⟨ts_part fromiso tzAvail nowMin r, rfl, ?_⟩
  cases hm : parse_mins r with
  | none => exact Or.inl rfl
  | some m =>
    by_cases h0 : m ≤ 0
    · exact Or.inr (Or.inl (by simp [mins_part, h0]))
    · by_cases h1 : m = 1
      · subst h1
        exact Or.inr (Or.inr (Or.inl (by decide)))
      · exact Or.inr (Or.inr (Or.inr ⟨m, by omega, by simp [mins_part, h0, h1]⟩))

lemma toList_append (a b : String) : (a ++ b).toList = a.toList ++ b.toList :=
  String.data_append a b

lemma isPrefixOf_self (l : List Char) : l.isPrefixOf l = true := by
  have h := isPrefixOf_self_append l []
  rwa [List.append_nil] at h

/-- Claim C10: the arrival display string is never empty and always
begins with the minutes segment, which is `"? min"` when
minutes-to-arrival is unknown — even when every field is absent or
unparseable. -/
theorem format_arrival_nonempty (fromiso : String → Option PyDt) (tzAvail : Bool)
    (nowMin : Nat) (r : RawRecord) :
    format_arrival fromiso tzAvail nowMin r ≠ "" ∧
    pyStartsWith (format_arrival fromiso tzAvail nowMin r) (mins_part (parse_mins r)) = true ∧
    (parse_mins r = Option.none →
      pyStartsWith (format_arrival fromiso tzAvail nowMin r) ("? min") = true) := by
  have key : format_arrival fromiso tzAvail nowMin r = mins_part (parse_mins r) ∨
      ∃ t, format_arrival fromiso tzAvail nowMin r
        = mins_part (parse_mins r) ++ (" | " ++ t) := by
    unfold format_arrival
    rw [joinNonEmpty_pair _ _ (mins_part_ne_empty _)]
    split
    · exact Or.inl rfl
    · exact Or.inr ⟨ts_part fromiso tzAvail nowMin r, by rw [String.append_assoc]⟩
  have hsw : pyStartsWith (format_arrival fromiso tzAvail nowMin r)
      (mins_part (parse_mins r)) = true := by
    rcases key with hk | ⟨t, hk⟩
    · rw [hk]
      unfold pyStartsWith
      exact isPrefixOf_self _
    · rw [hk]
      unfold pyStartsWith
      rw [toList_append]
      exact isPrefixOf_self_append _ _
  refine ⟨?_, hsw, ?_⟩
  · rcases key with hk | ⟨t, hk⟩
    · rw [hk]
      exact mins_part_ne_empty _
    · rw [hk]
      refine append_ne_empty _ _ ?_
      rw [String.data_append]
      simp
  · intro h
    rw [h] at hsw
    simpa [mins_part] using hsw

/-- C4, the code evaluated at the failing input: the distance segment is
computed by the unit heuristic (`"450"` → `"450m"`, `"2500"` → `"2.5km"`)
but `format_arrival` never joins it into the returned display — a record
carrying only `Distance = "450"` renders as exactly `"? min"` for every
parse behaviour, timezone availability and clock, with no distance
segment. -/
theorem distance_segment_dropped :
    dist_part [(("Distance" : String), PyVal.str "450")] = "450m" ∧
    dist_part [(("Distance" : String), PyVal.str "2500")] = "2.5km" ∧
    (∀ (fromiso : String → Option PyDt) (tzAvail : Bool) (nowMin : Nat),
      format_arrival fromiso tzAvail nowMin [(("Distance" : String), PyVal.str "450")]
        = "? min") := by
  refine ⟨by decide, by decide, ?_⟩
  intro fromiso tzAvail nowMin
  have ht := ts_part_of_noSched_noEta fromiso tzAvail nowMin
    [(("Distance" : String), PyVal.str "450")] rfl (Or.inl (by decide))
  unfold format_arrival
  rw [ht, joinNonEmpty_pair _ _ (mins_part_ne_empty _)]
  decide

/-- Counterexample to C6 as stated: the `10**9` sentinel ties with a
stop whose parsed distance is exactly `10^9`, and the stable sort then
keeps the unparseable stop first — so an unparseable-distance stop can
precede a stop with an equal parsed distance. -/
theorem sentinel_tie_counterexample :
    list_nearby_stops [[(("Name" : String), PyVal.str "u")],
        [(("Distance" : String), PyVal.str "1000000000")]] 0
      = [[(("Name" : String), PyVal.str "u")],
        [(("Distance" : String), PyVal.str "1000000000")]] ∧
    pyInt? (pyStrip (pyStr (if truthy (get [(("Name" : String), PyVal.str "u")] "Distance")
        then get [(("Name" : String), PyVal.str "u")] "Distance"
        else get [(("Name" : String), PyVal.str "u")] "DistanceFromStart"))) = Option.none ∧
    pyInt? (pyStrip (pyStr (get [(("Distance" : String), PyVal.str "1000000000")] "Distance")))
      = some (10 ^ 9) :=
  ⟨by decide, by decide, by decide⟩

/-- Amended C6: the nearby-stop listing is sorted ascending by the
`dist_val` key (unparseable distances take the `10^9` sentinel, so an
unparseable stop never precedes a stop with a strictly smaller parsed
distance; at exactly the sentinel value the stable sort may keep it
first); a positive cap truncates the sorted list and a cap of 0 means
unlimited. -/
theorem stop_sort_rule (stops : List RawRecord) (limit : Int) :
    List.Pairwise (fun a b => dist_val a ≤ dist_val b) (list_nearby_stops stops limit) ∧
    (limit = 0 → (list_nearby_stops stops limit).Perm stops) ∧
    (0 < limit → list_nearby_stops stops limit = (sortStops stops).take limit.toNat) := by
  have hs : List.Pairwise (fun a b => dist_val a ≤ dist_val b) (sortStops stops) :=
    List.sorted_insertionSort (fun a b => dist_val a ≤ dist_val b) stops
  refine ⟨?_, ?_, ?_⟩
  · show List.Pairwise (fun a b => dist_val a ≤ dist_val b)
      (if 0 < limit then (sortStops stops).take limit.toNat else sortStops stops)
    split
    · exact List.Pairwise.sublist (List.take_sublist _ _) hs
    · exact hs
  · intro h
    subst h
    show List.Perm (if (0 : Int) < 0 then (sortStops stops).take (0 : Int).toNat
      else sortStops stops) stops
    rw [if_neg (by omega)]
    exact List.perm_insertionSort _ _
  · intro h
    show (if 0 < limit then (sortStops stops).take limit.toNat else sortStops stops)
      = (sortStops stops).take limit.toNat
    rw [if_pos h]

/-- Witness for the amended C6: an unsorted two-stop list is permuted
(sorted) with cap 0. -/
theorem stop_sort_rule_instance :
    (list_nearby_stops [[(("Distance" : String), PyVal.int 2)],
        [(("Distance" : String), PyVal.int 1)]] 0).Perm
      [[(("Distance" : String), PyVal.int 2)], [(("Distance" : String), PyVal.int 1)]] :=
  (stop_sort_rule [[(("Distance" : String), PyVal.int 2)],
    [(("Distance" : String), PyVal.int 1)]] 0).2.1 rfl

/-- Witness for C10: a record with no fields at all still renders,
starting with (indeed equal to) `"? min"`. -/
theorem format_arrival_nonempty_instance :
    format_arrival (fun _ => Option.none) true 0 ([] : RawRecord) ≠ "" ∧
    pyStartsWith (format_arrival (fun _ => Option.none) true 0 ([] : RawRecord))
      ("? min") = true :=
  ⟨(format_arrival_nonempty (fun _ => Option.none) true 0 ([] : RawRecord)).1,
    (format_arrival_nonempty (fun _ => Option.none) true 0 ([] : RawRecord)).2.2 (by decide)⟩

end IsraelBus
